import Mathlib

/-!
Shallow embedding of `ruuvitag-upload` (src/main.rs) in Lean 4.

The program collects one measurement per configured sensor from a stream of
bluetooth advertisement events, then either prints the batch to stdout (no
`--url`) or uploads it, with a durable store-and-forward cache of batches
whose upload failed.

Modelling conventions:
  * A Rust `HashMap<String, V>` is modelled as an association list
    `List (String × V)` whose `insert` overwrites an existing key in place
    (`insertAssoc`), matching `HashMap::insert` semantics (value replaced,
    length unchanged when the key is present).
  * The mpsc channel feeding `collect_measurements` is modelled as a finite
    list of already-decoded `Measurement`s (the `on_event` callback discards
    decode failures before sending, so only decoded measurements reach the
    channel); exhausting the list models `recv()` not returning a value
    (stream termination / RecvError).
  * The cache directory is modelled by `DirAccess` (metadata outcome plus a
    directory listing); file contents are not inspected by the drain loop
    beyond open/parse success, so open/parse and the HTTP POST outcome are
    oracles `String → Bool` keyed by file name.
  * `f64` sensor quantities are modelled as `Rat` (no claim depends on
    floating-point rounding).
-/

namespace Ruuvitag

/-- Decoded sensor values, as produced by the external
`ruuvi_sensor_protocol` decoder (`SensorValues`). Raw integer fields, each
optional. -/
structure SensorValues where
  humidity : Option Int
  temperature : Option Int
  pressure : Option Int
  battery_potential : Option Int
deriving DecidableEq

/-- One decoded reading (`struct Measurement` in main.rs). The four physical
quantities are optional; `f64` is modelled as `Rat`. -/
structure Measurement where
  address : String
  timestamp : Nat
  humidity : Option Rat
  temperature : Option Rat
  pressure : Option Rat
  battery_potential : Option Rat
deriving DecidableEq

/-- `Measurement::new` (main.rs lines 42-54): scales the raw decoder values
into physical units. -/
def Measurement.new (address : String) (now : Nat) (values : SensorValues) :
    Measurement where
  address := address
  timestamp := now
  humidity := values.humidity.map (fun x => (x : Rat) / 10000)
  temperature := values.temperature.map (fun x => (x : Rat) / 1000)
  pressure := values.pressure.map (fun x => (x : Rat) / 1000)
  battery_potential := values.battery_potential.map (fun x => (x : Rat) / 1000)

/-- Association-list lookup, modelling `HashMap::get`. -/
def lookupAssoc {β : Type} : List (String × β) → String → Option β
  | [], _ => none
  | (k, v) :: rest, key => if key = k then some v else lookupAssoc rest key

/-- Association-list insert that overwrites an existing key in place,
modelling `HashMap::insert` (value replaced, no duplicate key created). -/
def insertAssoc {β : Type} (k : String) (v : β) : List (String × β) → List (String × β)
  | [] => [(k, v)]
  | (k₂, v₂) :: rest => if k = k₂ then (k, v) :: rest else (k₂, v₂) :: insertAssoc k v rest

/-- The keys of an association list. -/
def keysAssoc {β : Type} (l : List (String × β)) : List String := l.map (·.1)

/-- The expected-sensor table: address → alias (`sensors: HashMap<String, String>`
in `run`). -/
abbrev SensorTable := List (String × String)

/-- A batch under construction or complete: alias → measurement
(`measurements: HashMap<String, Measurement>`). -/
abbrev Batch := List (String × Measurement)

/-- Failure of the collection loop: `meas_rx.recv()?` returning an error,
i.e. the event stream terminating before the batch is complete. -/
inductive CollectError
  | recvError
deriving DecidableEq

/-- One iteration body of the loop in `collect_measurements`
(main.rs lines 303-311): if the address of the received measurement is a key of
the sensor table, upsert it under its alias; otherwise discard it. -/
def collectStep (sensors : SensorTable) (batch : Batch) (m : Measurement) : Batch :=
  match lookupAssoc sensors m.address with
  | some al => insertAssoc al m batch
  | none => batch

/-- The loop of `collect_measurements` (main.rs lines 303-311): receive a
measurement (stream exhausted ⇒ `recv` error), upsert it if its address is
expected, and break exactly when, right after an upsert, the batch size
equals the sensor-table size. -/
def collectLoop (sensors : SensorTable) : List Measurement → Batch →
    Except CollectError Batch
  | [], _ => .error .recvError
  | m :: rest, batch =>
    match lookupAssoc sensors m.address with
    | some al =>
      let batch₂ := insertAssoc al m batch
      if batch₂.length = sensors.length then .ok batch₂
      else collectLoop sensors rest batch₂
    | none => collectLoop sensors rest batch

/-- `collect_measurements` (main.rs lines 275-316): run the collection loop
starting from an empty batch. The bluetooth adapter setup and the decoding
callback are external; the stream delivers already-decoded measurements. -/
def collect_measurements (sensors : SensorTable) (events : List Measurement) :
    Except CollectError Batch :=
  collectLoop sensors events []

/-! ## Batch store: the cache directory -/

/-- The kind of an I/O error returned by `fs::metadata`. -/
inductive IoErrorKind
  | notFound
  | permissionDenied
  | otherError
deriving DecidableEq

/-- One entry of the cache directory as seen by `fs::read_dir`: a name and
whether the entry is a regular file (`entry.file_type()?.is_file()`). -/
structure DirEntry where
  name : String
  isFile : Bool
deriving DecidableEq

/-- The observable state of the cache directory: either `fs::metadata`
fails with some error kind, or the directory is present with a listing. -/
inductive DirAccess
  | metadataErr (k : IoErrorKind)
  | present (entries : List DirEntry)
deriving DecidableEq

/-- Errors surfaced by `find_cached_measurements`. -/
inductive FindError
  | metadataError (k : IoErrorKind)
deriving DecidableEq

/-- Split a character list into the groups between occurrences of `.`,
mirroring how Rust locates the final dot of a file name, i.e. `.` for `Path::extension`. -/
def splitOnDot : List Char → List (List Char)
  | [] => [[]]
  | c :: rest =>
    if c = '.' then [] :: splitOnDot rest
    else
      match splitOnDot rest with
      | [] => [[c]]
      | g :: gs => (c :: g) :: gs

/-- Rust `Path::extension` on a file name: the portion after the last `.`,
unless there is no `.` or the part before the last `.` is empty (a leading-dot
name like `.json` has no extension). -/
def fileExtension (name : String) : Option String :=
  match (splitOnDot name.data).reverse with
  | [] => none
  | [_] => none
  | ext :: stemRev => if stemRev = [[]] then none else some (String.mk ext)

/-- Whether a directory entry passes the filter of `find_cached_measurements`
(main.rs lines 209-215): a regular file whose extension is `json`. -/
def isCachedEntry (e : DirEntry) : Bool :=
  e.isFile && fileExtension e.name == some "json"

/-- Lexicographic comparison of character lists by code point, which for
UTF-8 data coincides with the byte order Rust uses to compare the `OsStr`
components of two `PathBuf`s. -/
def lexLe : List Char → List Char → Bool
  | [], _ => true
  | _ :: _, [] => false
  | a :: as, b :: bs =>
    if a.toNat < b.toNat then true
    else if b.toNat < a.toNat then false
    else lexLe as bs

/-- Lexicographic (byte) order on file names. -/
def strLe (a b : String) : Bool := lexLe a.data b.data

/-- Insert a string into a `strLe`-sorted list, keeping it sorted. -/
def insertSorted (x : String) : List String → List String
  | [] => [x]
  | y :: ys => if strLe x y then x :: y :: ys else y :: insertSorted x ys

/-- Insertion sort on strings, modelling `Vec::<PathBuf>::sort()`: the paths
share the cache-directory prefix, so `PathBuf` ordering reduces to
lexicographic byte order on the file names. -/
def sortNames : List String → List String
  | [] => []
  | x :: xs => insertSorted x (sortNames xs)

/-- `find_cached_measurements` (main.rs lines 195-222): an absent cache
directory yields an empty list, any other `fs::metadata` error propagates;
otherwise the regular files with extension `json` are returned sorted. -/
def find_cached_measurements (dir : DirAccess) : Except FindError (List String) :=
  match dir with
  | .metadataErr .notFound => .ok []
  | .metadataErr k => .error (.metadataError k)
  | .present entries =>
    .ok (sortNames ((entries.filter isCachedEntry).map (·.name)))

/-! ## Relay: draining the cache and uploading -/

/-- Errors aborting `upload_cached_measurements`: listing the directory
failed, a cached file could not be opened/parsed, or the POST of a cached
file failed (transport error or non-success status). -/
inductive DrainError
  | findError (e : FindError)
  | readError (path : String)
  | uploadError (path : String)
deriving DecidableEq

/-- Outcome of `upload_cached_measurements`: the paths POSTed to the sink in
order, the paths removed from the cache directory, and the error that aborted
the loop, if any. -/
structure DrainOutcome where
  attempts : List String
  removed : List String
  err : Option DrainError
deriving DecidableEq

/-- The loop of `upload_cached_measurements` (main.rs lines 229-239) over the
sorted cached paths. `readOk p` models `File::open` + `serde_json::from_reader`
succeeding for `p`; `sinkOk p` models the POST of the contents of `p` returning a
success status. On the first failure of either, the loop aborts via `?`;
a file is removed exactly after its POST succeeds. -/
def drainFiles (readOk sinkOk : String → Bool) : List String → DrainOutcome
  | [] => ⟨[], [], none⟩
  | p :: rest =>
    if readOk p then
      if sinkOk p then
        let o := drainFiles readOk sinkOk rest
        ⟨p :: o.attempts, p :: o.removed, o.err⟩
      else ⟨[p], [], some (.uploadError p)⟩
    else ⟨[], [], some (.readError p)⟩

/-- `upload_cached_measurements` (main.rs lines 224-242): list the cached
batches (sorted), then POST them oldest-first, deleting each file after its
upload is acknowledged, aborting on the first failure. -/
def upload_cached_measurements (dir : DirAccess) (readOk sinkOk : String → Bool) :
    DrainOutcome :=
  match find_cached_measurements dir with
  | .error e => ⟨[], [], some (.findError e)⟩
  | .ok paths => drainFiles readOk sinkOk paths

/-! ## Batch store: persisting a batch -/

/-- The file name computed by `cache_measurements` (main.rs lines 254-260):
the current unix time in seconds, rendered in decimal, with extension
`.json`. -/
def cacheFileName (nowSecs : Nat) : String :=
  toString nowSecs ++ ".json"

/-- `cache_measurements` (main.rs lines 251-273) acting on the cache
directory, modelled as a map from file name to stored batch: `File::create`
truncates an existing file of the same name, so the write is an overwriting
insert. (Serialization is modelled as storing the batch itself.) -/
def cache_measurements (nowSecs : Nat) (measurements : Batch)
    (files : List (String × Batch)) : List (String × Batch) :=
  insertAssoc (cacheFileName nowSecs) measurements files

/-! ## run / main orchestration -/

/-- One delivery attempt against the sink, as seen in the trace of a run: the POST
of a cached pending file, or the POST of the freshly collected batch. -/
inductive Attempt
  | pending (path : String)
  | fresh
deriving DecidableEq

/-- An error propagated out of `run` (making `main` exit non-zero). -/
inductive RunError
  | collectError (e : CollectError)
  | cacheError
deriving DecidableEq

/-- The observable outcome of one invocation of `run`: its result, the
sequence of POSTs made against the sink, and whether the fresh batch was
written to the cache. -/
structure RunOutcome where
  result : Except RunError Unit
  attempts : List Attempt
  cachedFresh : Bool

/-- `run` (main.rs lines 142-193). With a URL configured: first
`upload_cached_measurements`; if it failed, `cache_measurements(fresh)?` and
return `Ok` — the fresh batch is NOT posted. If the drain succeeded, POST the
fresh batch; on failure, `cache_measurements(fresh)?`. With no URL the batch
is printed and nothing else happens. `freshOk` models the fresh POST
returning a success status; `cacheOk` models `cache_measurements`
succeeding. -/
def run (url : Option String) (sensors : SensorTable) (events : List Measurement)
    (dir : DirAccess) (readOk sinkOk : String → Bool) (freshOk cacheOk : Bool) :
    RunOutcome :=
  match collect_measurements sensors events with
  | .error e => ⟨.error (.collectError e), [], false⟩
  | .ok _ =>
    match url with
    | none => ⟨.ok (), [], false⟩
    | some _ =>
      let d := upload_cached_measurements dir readOk sinkOk
      let pendingAttempts := d.attempts.map Attempt.pending
      match d.err with
      | some _ =>
        if cacheOk then ⟨.ok (), pendingAttempts, true⟩
        else ⟨.error .cacheError, pendingAttempts, false⟩
      | none =>
        let allAttempts := pendingAttempts ++ [Attempt.fresh]
        if freshOk then ⟨.ok (), allAttempts, false⟩
        else if cacheOk then ⟨.ok (), allAttempts, true⟩
        else ⟨.error .cacheError, allAttempts, false⟩

/-- `main` (main.rs lines 135-140): exit status 1 when `run` returns an
error, 0 otherwise. -/
def exitCode (o : RunOutcome) : Nat :=
  match o.result with
  | .ok _ => 0
  | .error _ => 1

/-- Whether an `Except` value is a success. -/
def exceptOk {ε α : Type} : Except ε α → Bool
  | .ok _ => true
  | .error _ => false

/-! ## Association-list lemmas -/

theorem lookupAssoc_insertAssoc_self {β : Type} (k : String) (v : β) :
    ∀ l : List (String × β), lookupAssoc (insertAssoc k v l) k = some v
  | [] => by simp [insertAssoc, lookupAssoc]
  | (k₂, v₂) :: rest => by
    by_cases h : k = k₂
    · simp [insertAssoc, h, lookupAssoc]
    · simp [insertAssoc, h, lookupAssoc, lookupAssoc_insertAssoc_self k v rest]

theorem mem_keys_insertAssoc {β : Type} (k : String) (v : β) :
    ∀ (l : List (String × β)) (a : String),
      a ∈ keysAssoc (insertAssoc k v l) ↔ a = k ∨ a ∈ keysAssoc l
  | [], a => by simp [insertAssoc, keysAssoc]
  | (k₂, v₂) :: rest, a => by
    by_cases h : k = k₂
    · subst h; simp [insertAssoc, keysAssoc]
    · have ih := mem_keys_insertAssoc k v rest a
      simp only [insertAssoc, if_neg h, keysAssoc, List.map_cons, List.mem_cons] at ih ⊢
      tauto

theorem length_insertAssoc_of_mem {β : Type} (k : String) (v : β) :
    ∀ l : List (String × β), k ∈ keysAssoc l →
      (insertAssoc k v l).length = l.length
  | [], h => by simp [keysAssoc] at h
  | (k₂, v₂) :: rest, h => by
    by_cases hk : k = k₂
    · simp [insertAssoc, hk]
    · have hmem : k ∈ keysAssoc rest := by
        simp only [keysAssoc, List.map_cons, List.mem_cons] at h
        rcases h with h | h
        · exact absurd h hk
        · exact h
      simp [insertAssoc, hk, length_insertAssoc_of_mem k v rest hmem]

theorem nodup_keys_insertAssoc {β : Type} (k : String) (v : β) :
    ∀ l : List (String × β), (keysAssoc l).Nodup →
      (keysAssoc (insertAssoc k v l)).Nodup
  | [], _ => by simp [insertAssoc, keysAssoc]
  | (k₂, v₂) :: rest, h => by
    simp only [keysAssoc, List.map_cons, List.nodup_cons] at h
    by_cases hk : k = k₂
    · subst hk
      have heq : insertAssoc k v ((k, v₂) :: rest) = (k, v) :: rest := by
        simp [insertAssoc]
      rw [heq]
      simp only [keysAssoc, List.map_cons, List.nodup_cons]
      exact h
    · have heq : insertAssoc k v ((k₂, v₂) :: rest) = (k₂, v₂) :: insertAssoc k v rest := by
        simp [insertAssoc, hk]
      rw [heq]
      simp only [keysAssoc, List.map_cons, List.nodup_cons]
      refine ⟨fun hmem => ?_, nodup_keys_insertAssoc k v rest h.2⟩
      rcases (mem_keys_insertAssoc k v rest k₂).mp hmem with h₂ | h₂
      · exact hk h₂.symm
      · exact h.1 h₂

/-! ## Lexicographic order lemmas -/

theorem lexLe_total : ∀ as bs : List Char, lexLe as bs = true ∨ lexLe bs as = true
  | [], _ => Or.inl rfl
  | _ :: _, [] => Or.inr rfl
  | a :: as, b :: bs => by
    rcases Nat.lt_trichotomy a.toNat b.toNat with h | h | h
    · left; simp [lexLe, h]
    · rcases lexLe_total as bs with ht | ht
      · left; simp [lexLe, h, ht]
      · right; simp [lexLe, h.symm, ht]
    · right; simp [lexLe, h]

theorem lexLe_trans : ∀ as bs cs : List Char,
    lexLe as bs = true → lexLe bs cs = true → lexLe as cs = true
  | [], _, _, _, _ => rfl
  | _ :: _, [], _, h, _ => absurd h (by simp [lexLe])
  | _ :: _, _ :: _, [], _, h => absurd h (by simp [lexLe])
  | a :: as, b :: bs, c :: cs, h₁, h₂ => by
    rcases Nat.lt_trichotomy a.toNat b.toNat with hab | hab | hab
    · rcases Nat.lt_trichotomy b.toNat c.toNat with hbc | hbc | hbc
      · simp [lexLe, show a.toNat < c.toNat by omega]
      · simp [lexLe, show a.toNat < c.toNat by omega]
      · simp [lexLe, show ¬ b.toNat < c.toNat by omega,
          show c.toNat < b.toNat by omega] at h₂
    · rcases Nat.lt_trichotomy b.toNat c.toNat with hbc | hbc | hbc
      · simp [lexLe, show a.toNat < c.toNat by omega]
      · have h₁' : lexLe as bs = true := by
          simpa [lexLe, show ¬ a.toNat < b.toNat by omega,
            show ¬ b.toNat < a.toNat by omega] using h₁
        have h₂' : lexLe bs cs = true := by
          simpa [lexLe, show ¬ b.toNat < c.toNat by omega,
            show ¬ c.toNat < b.toNat by omega] using h₂
        simpa [lexLe, show ¬ a.toNat < c.toNat by omega,
          show ¬ c.toNat < a.toNat by omega] using lexLe_trans as bs cs h₁' h₂'
      · simp [lexLe, show ¬ b.toNat < c.toNat by omega,
          show c.toNat < b.toNat by omega] at h₂
    · simp [lexLe, show ¬ a.toNat < b.toNat by omega,
        show b.toNat < a.toNat by omega] at h₁

theorem strLe_total (a b : String) : strLe a b = true ∨ strLe b a = true :=
  lexLe_total a.data b.data

theorem strLe_trans {a b c : String} (h₁ : strLe a b = true) (h₂ : strLe b c = true) :
    strLe a c = true :=
  lexLe_trans a.data b.data c.data h₁ h₂

/-! ## Insertion-sort lemmas -/

theorem perm_insertSorted (x : String) :
    ∀ l : List String, (insertSorted x l).Perm (x :: l)
  | [] => List.Perm.refl _
  | y :: ys => by
    by_cases h : strLe x y = true
    · simp [insertSorted, h]
    · simp only [insertSorted, if_neg h]
      exact ((perm_insertSorted x ys).cons y).trans (List.Perm.swap x y ys)

theorem mem_insertSorted {x a : String} {l : List String} :
    a ∈ insertSorted x l ↔ a = x ∨ a ∈ l := by
  rw [(perm_insertSorted x l).mem_iff, List.mem_cons]

theorem pairwise_insertSorted (x : String) :
    ∀ l : List String, l.Pairwise (fun a b => strLe a b = true) →
      (insertSorted x l).Pairwise (fun a b => strLe a b = true)
  | [], _ => by simp [insertSorted]
  | y :: ys, h => by
    rcases List.pairwise_cons.mp h with ⟨hy, hys⟩
    by_cases hxy : strLe x y = true
    · simp only [insertSorted, if_pos hxy, List.pairwise_cons]
      refine ⟨fun b hb => ?_, hy, hys⟩
      rcases List.mem_cons.mp hb with rfl | hb
      · exact hxy
      · exact strLe_trans hxy (hy b hb)
    · simp only [insertSorted, if_neg hxy, List.pairwise_cons]
      refine ⟨fun b hb => ?_, pairwise_insertSorted x ys hys⟩
      rcases mem_insertSorted.mp hb with rfl | hb
      · rcases strLe_total b y with hyx | hyx
        · exact absurd hyx hxy
        · exact hyx
      · exact hy b hb

theorem perm_sortNames : ∀ l : List String, (sortNames l).Perm l
  | [] => List.Perm.refl _
  | x :: xs =>
    (perm_insertSorted x (sortNames xs)).trans ((perm_sortNames xs).cons x)

theorem pairwise_sortNames :
    ∀ l : List String, (sortNames l).Pairwise (fun a b => strLe a b = true)
  | [] => List.Pairwise.nil
  | x :: xs => pairwise_insertSorted x (sortNames xs) (pairwise_sortNames xs)

theorem mem_sortNames {a : String} {l : List String} :
    a ∈ sortNames l ↔ a ∈ l :=
  (perm_sortNames l).mem_iff

/-! ## Batch-store and drain lemmas -/

theorem find_cached_sorted {dir : DirAccess} {paths : List String}
    (h : find_cached_measurements dir = .ok paths) :
    paths.Pairwise (fun a b => strLe a b = true) := by
  match dir with
  | .metadataErr .notFound =>
    simp only [find_cached_measurements, Except.ok.injEq] at h
    subst h; exact List.Pairwise.nil
  | .metadataErr .permissionDenied => simp [find_cached_measurements] at h
  | .metadataErr .otherError => simp [find_cached_measurements] at h
  | .present entries =>
    simp only [find_cached_measurements, Except.ok.injEq] at h
    subst h; exact pairwise_sortNames _

theorem drainFiles_removed_iff (ro so : String → Bool) :
    ∀ (paths : List String) (p : String),
      p ∈ (drainFiles ro so paths).removed ↔
        p ∈ (drainFiles ro so paths).attempts ∧ so p = true
  | [], p => by simp [drainFiles]
  | q :: rest, p => by
    by_cases hr : ro q
    · by_cases hs : so q
      · simp only [drainFiles, if_pos hr, if_pos hs, List.mem_cons]
        constructor
        · rintro (rfl | hmem)
          · exact ⟨Or.inl rfl, hs⟩
          · have := (drainFiles_removed_iff ro so rest p).mp hmem
            exact ⟨Or.inr this.1, this.2⟩
        · rintro ⟨rfl | hmem, hp⟩
          · exact Or.inl rfl
          · exact Or.inr ((drainFiles_removed_iff ro so rest p).mpr ⟨hmem, hp⟩)
      · simp only [drainFiles, if_pos hr, if_neg hs, List.not_mem_nil, false_iff, not_and]
        intro hp
        rcases List.mem_singleton.mp hp with rfl
        exact hs
    · simp [drainFiles, hr]

theorem drainFiles_attempts_take (ro so : String → Bool) :
    ∀ paths : List String,
      (drainFiles ro so paths).attempts =
        paths.take (drainFiles ro so paths).attempts.length
  | [] => rfl
  | q :: rest => by
    by_cases hr : ro q
    · by_cases hs : so q
      · simp only [drainFiles, if_pos hr, if_pos hs, List.length_cons, List.take_succ_cons,
          List.cons.injEq, true_and]
        exact drainFiles_attempts_take ro so rest
      · simp [drainFiles, hr, hs]
    · simp [drainFiles, hr]

theorem drainFiles_uploadErr_getLast (ro so : String → Bool) :
    ∀ (paths : List String) (p : String),
      (drainFiles ro so paths).err = some (.uploadError p) →
        (drainFiles ro so paths).attempts.getLast? = some p ∧ so p = false
  | [], p, h => by simp [drainFiles] at h
  | q :: rest, p, h => by
    by_cases hr : ro q
    · by_cases hs : so q
      · simp only [drainFiles, if_pos hr, if_pos hs] at h ⊢
        have ih := drainFiles_uploadErr_getLast ro so rest p h
        refine ⟨?_, ih.2⟩
        match hatt : (drainFiles ro so rest).attempts with
        | [] => rw [hatt] at ih; simp at ih
        | a :: l => rw [hatt] at ih; rw [List.getLast?_cons_cons]; exact ih.1
      · simp only [drainFiles, if_pos hr, if_neg hs, Option.some.injEq,
          DrainError.uploadError.injEq] at h
        subst h
        constructor
        · simp [drainFiles, hr, hs]
        · simpa using hs
    · simp [drainFiles, hr] at h

theorem mem_take_of_sorted_lt :
    ∀ (paths : List String) (k : Nat) (p q : String),
      paths.Pairwise (fun a b => strLe a b = true) →
      p ∈ paths → q ∈ paths.take k → strLe q p = false → p ∈ paths.take k
  | [], _, _, _, _, hp, _, _ => absurd hp (List.not_mem_nil _)
  | _ :: _, 0, _, _, _, _, hq, _ => absurd hq (by simp)
  | x :: rest, k + 1, p, q, hsort, hp, hq, hqp => by
    rcases List.pairwise_cons.mp hsort with ⟨hx, hrest⟩
    simp only [List.take_succ_cons, List.mem_cons] at hq ⊢
    rcases List.mem_cons.mp hp with hpx | hpr
    · exact Or.inl hpx
    · rcases hq with hqx | hqt
      · subst hqx
        exact absurd (hx p hpr) (by simp [hqp])
      · exact Or.inr (mem_take_of_sorted_lt rest k p q hrest hpr hqt hqp)

/-! ## Collector lemmas -/

theorem lookupAssoc_mem {β : Type} :
    ∀ (l : List (String × β)) (k : String) (v : β),
      lookupAssoc l k = some v → (k, v) ∈ l
  | [], _, _, h => by simp [lookupAssoc] at h
  | (k₂, v₂) :: rest, k, v, h => by
    by_cases hk : k = k₂
    · simp only [lookupAssoc, if_pos hk, Option.some.injEq] at h
      subst hk; subst h; exact List.mem_cons_self _ _
    · simp only [lookupAssoc, if_neg hk] at h
      exact List.mem_cons_of_mem _ (lookupAssoc_mem rest k v h)

theorem collectLoop_nil_sensors :
    ∀ (events : List Measurement) (batch : Batch),
      collectLoop [] events batch = .error .recvError
  | [], _ => rfl
  | _ :: rest, batch => collectLoop_nil_sensors rest batch

/-- The alias column of the sensor table. -/
def aliasesOf (sensors : SensorTable) : List String := sensors.map (·.2)

/-- Invariant of the batch being assembled: its keys are distinct aliases
drawn from the sensor table. -/
def GoodBatch (sensors : SensorTable) (batch : Batch) : Prop :=
  (keysAssoc batch).Nodup ∧ ∀ a ∈ keysAssoc batch, a ∈ aliasesOf sensors

theorem goodBatch_insert {sensors : SensorTable} {batch : Batch} {al : String}
    {m : Measurement} (hal : al ∈ aliasesOf sensors)
    (hg : GoodBatch sensors batch) :
    GoodBatch sensors (insertAssoc al m batch) := by
  refine ⟨nodup_keys_insertAssoc al m batch hg.1, fun a ha => ?_⟩
  rcases (mem_keys_insertAssoc al m batch a).mp ha with rfl | ha
  · exact hal
  · exact hg.2 a ha

theorem length_le_dedup_of_nodup_subset {l l₂ : List String}
    (hn : l.Nodup) (hs : l ⊆ l₂) : l.length ≤ l₂.dedup.length := by
  have h₁ : l.toFinset.card = l.length := by
    rw [List.card_toFinset, hn.dedup]
  have h₂ : l.toFinset ⊆ l₂.toFinset := by
    intro x hx
    rw [List.mem_toFinset] at hx ⊢
    exact hs hx
  calc l.length = l.toFinset.card := h₁.symm
    _ ≤ l₂.toFinset.card := Finset.card_le_card h₂
    _ = l₂.dedup.length := List.card_toFinset l₂

theorem dedup_length_lt_of_not_nodup {l : List String} (h : ¬ l.Nodup) :
    l.dedup.length < l.length := by
  rcases Nat.lt_or_ge l.dedup.length l.length with hlt | hge
  · exact hlt
  · exfalso
    have heq : l.dedup = l :=
      (List.dedup_sublist l).eq_of_length
        (Nat.le_antisymm (List.dedup_sublist l).length_le hge)
    exact h (heq ▸ List.nodup_dedup l)

theorem goodBatch_length_lt {sensors : SensorTable} {batch : Batch}
    (hdup : ¬ (aliasesOf sensors).Nodup) (hg : GoodBatch sensors batch) :
    batch.length < sensors.length := by
  have h₁ : batch.length = (keysAssoc batch).length := by simp [keysAssoc]
  have h₂ : (keysAssoc batch).length ≤ (aliasesOf sensors).dedup.length :=
    length_le_dedup_of_nodup_subset hg.1 (fun a ha => hg.2 a ha)
  have h₃ : (aliasesOf sensors).dedup.length < (aliasesOf sensors).length :=
    dedup_length_lt_of_not_nodup hdup
  have h₄ : (aliasesOf sensors).length = sensors.length := by simp [aliasesOf]
  omega

theorem collectLoop_error_of_dup_alias {sensors : SensorTable}
    (hdup : ¬ (aliasesOf sensors).Nodup) :
    ∀ (events : List Measurement) (batch : Batch), GoodBatch sensors batch →
      collectLoop sensors events batch = .error .recvError
  | [], _, _ => rfl
  | m :: rest, batch, hg => by
    match hlook : lookupAssoc sensors m.address with
    | none =>
      simp only [collectLoop, hlook]
      exact collectLoop_error_of_dup_alias hdup rest batch hg
    | some al =>
      have hal : al ∈ aliasesOf sensors := by
        have hm := lookupAssoc_mem sensors m.address al hlook
        exact List.mem_map.mpr ⟨(m.address, al), hm, rfl⟩
      have hg₂ : GoodBatch sensors (insertAssoc al m batch) := goodBatch_insert hal hg
      have hlt : (insertAssoc al m batch).length < sensors.length :=
        goodBatch_length_lt hdup hg₂
      simp only [collectLoop, hlook]
      rw [if_neg (by omega)]
      exact collectLoop_error_of_dup_alias hdup rest _ hg₂

/-! ## Claim-side definitions -/

/-- Decimal value of a digit string (claim-side helper). -/
def digitsVal : List Char → Nat → Nat
  | [], acc => acc
  | c :: rest, acc => digitsVal rest (acc * 10 + (c.toNat - 48))

/-- The decimal-timestamp identifier of a cache file name, per the
words: the decimal number before the first dot. Used only to compare the
ordering of the code against the claimed ordering. -/
def timestampId (name : String) : Nat :=
  digitsVal ((splitOnDot name.data).headD []) 0

/-- The directory listing of the repository test
`test_find_cached_measurements` test. -/
def exampleDir : List DirEntry :=
  [⟨"1236.json", true⟩, ⟨"1233.cmd", true⟩, ⟨"1234.json", true⟩,
   ⟨"1235.json", true⟩, ⟨"1238.md", true⟩, ⟨"1237.txt", true⟩]

/-! ## Claims -/

/-- C8: listing pending entries when the store location does not exist
returns an empty sequence rather than an error, while any other error
accessing the store location is rejected and propagated. -/
theorem claim_C8 :
    find_cached_measurements (.metadataErr .notFound) = .ok [] ∧
    ∀ k : IoErrorKind, k ≠ .notFound →
      find_cached_measurements (.metadataErr k) = .error (.metadataError k) := by
  refine ⟨rfl, fun k hk => ?_⟩
  cases k
  · exact absurd rfl hk
  · rfl
  · rfl

/-- Witness for C8 at the concrete error kind `permissionDenied`. -/
theorem claim_C8_witness :
    IoErrorKind.permissionDenied ≠ IoErrorKind.notFound ∧
    find_cached_measurements (.metadataErr .permissionDenied) =
      .error (.metadataError .permissionDenied) :=
  ⟨by decide, claim_C8.2 .permissionDenied (by decide)⟩

/-- C6 counterexample: on a directory holding the regular files `999.json`
and `1234.json`, the code returns `[1234.json, 999.json]` (lexicographic
file-name order), which is not ascending in the decimal-timestamp
identifier as the claim states (999 < 1234). -/
theorem claim_C6_counterexample :
    find_cached_measurements (.present [⟨"999.json", true⟩, ⟨"1234.json", true⟩]) =
      .ok ["1234.json", "999.json"] ∧
    ¬ (["1234.json", "999.json"] : List String).Pairwise
        (fun a b => timestampId a ≤ timestampId b) := by
  constructor
  · rfl
  · decide

/-- C6 (amended): for every existing store directory, listing pending
entries returns exactly the regular files whose extension is `json`,
ordered ascending lexicographically by file name (which coincides with
ascending identifier order when the identifiers have equal digit length,
as in the example of the claim). -/
theorem claim_C6 (entries : List DirEntry) :
    find_cached_measurements (.present entries) =
      .ok (sortNames ((entries.filter isCachedEntry).map (·.name))) ∧
    (sortNames ((entries.filter isCachedEntry).map (·.name))).Perm
      ((entries.filter isCachedEntry).map (·.name)) ∧
    (sortNames ((entries.filter isCachedEntry).map (·.name))).Pairwise
      (fun a b => strLe a b = true) ∧
    ∀ n, n ∈ sortNames ((entries.filter isCachedEntry).map (·.name)) ↔
      ∃ e ∈ entries, e.isFile = true ∧ fileExtension e.name = some "json" ∧
        e.name = n := by
  refine ⟨rfl, perm_sortNames _, pairwise_sortNames _, fun n => ?_⟩
  rw [mem_sortNames, List.mem_map]
  constructor
  · rintro ⟨e, he, rfl⟩
    rcases List.mem_filter.mp he with ⟨he₁, he₂⟩
    simp only [isCachedEntry, Bool.and_eq_true, beq_iff_eq] at he₂
    exact ⟨e, he₁, he₂.1, he₂.2, rfl⟩
  · rintro ⟨e, he, hf, hext, rfl⟩
    exact ⟨e, List.mem_filter.mpr ⟨he, by simp [isCachedEntry, hf, hext]⟩, rfl⟩

/-- Witness for C6 on the test listing of the repository: the result is
exactly `1234.json, 1235.json, 1236.json` in that order, and it is sorted. -/
theorem claim_C6_witness :
    find_cached_measurements (.present exampleDir) =
      .ok ["1234.json", "1235.json", "1236.json"] ∧
    (sortNames ((exampleDir.filter isCachedEntry).map (·.name))).Pairwise
      (fun a b => strLe a b = true) :=
  ⟨rfl, (claim_C6 exampleDir).2.2.1⟩

/-- C2: during a drain, the file of a pending entry is removed from the store if
and only if its upload was attempted and the sink acknowledged it with a
success status; a failed or never-attempted upload leaves the file in
place. -/
theorem claim_C2 (dir : DirAccess) (ro so : String → Bool) (p : String) :
    p ∈ (upload_cached_measurements dir ro so).removed ↔
      p ∈ (upload_cached_measurements dir ro so).attempts ∧ so p = true := by
  rcases hfind : find_cached_measurements dir with e | paths
  · simp [upload_cached_measurements, hfind]
  · simp only [upload_cached_measurements, hfind]
    exact drainFiles_removed_iff ro so paths p

/-- C5 (amended): pending entries are attempted strictly in ascending
lexicographic file-name order — the listing order of the store, which
coincides with ascending identifier age only when the identifiers have
equal digit length (the attempt sequence is a prefix of the sorted pending
list, hence itself sorted); on the first upload failure the drain aborts
with that path as its last attempt; and no entry is ever attempted while a
lexicographically strictly smaller pending entry is unattempted. -/
theorem claim_C5 (dir : DirAccess) (ro so : String → Bool) (paths : List String)
    (hfind : find_cached_measurements dir = .ok paths) :
    (upload_cached_measurements dir ro so).attempts =
      paths.take (upload_cached_measurements dir ro so).attempts.length ∧
    (upload_cached_measurements dir ro so).attempts.Pairwise
      (fun a b => strLe a b = true) ∧
    (∀ p, (upload_cached_measurements dir ro so).err = some (.uploadError p) →
      (upload_cached_measurements dir ro so).attempts.getLast? = some p ∧
        so p = false) ∧
    (∀ p q, p ∈ paths → q ∈ (upload_cached_measurements dir ro so).attempts →
      strLe q p = false → p ∈ (upload_cached_measurements dir ro so).attempts) := by
  have hu : upload_cached_measurements dir ro so = drainFiles ro so paths := by
    simp [upload_cached_measurements, hfind]
  have hsorted := find_cached_sorted hfind
  rw [hu]
  have htake := drainFiles_attempts_take ro so paths
  refine ⟨htake, ?_, fun p hp => drainFiles_uploadErr_getLast ro so paths p hp, ?_⟩
  · rw [htake]
    exact List.Pairwise.sublist (List.take_sublist _ _) hsorted
  · intro p q hp hq hqp
    rw [htake] at hq ⊢
    exact mem_take_of_sorted_lt paths _ p q hsorted hp hq hqp

/-- A present store directory with two pending batches, listed out of
order. -/
def dirC5 : DirAccess := .present [⟨"1001.json", true⟩, ⟨"1000.json", true⟩]

/-- Oracle: every cached file opens and parses. -/
def roTrue : String → Bool := fun _ => true

/-- Oracle: every upload fails. -/
def soFalse : String → Bool := fun _ => false

/-- A store holding an older pending batch (identifier 999) and a newer one
(identifier 1234). -/
def dirOld : DirAccess := .present [⟨"999.json", true⟩, ⟨"1234.json", true⟩]

/-- Oracle: the sink accepts only the upload of `1234.json`. -/
def so1234 : String → Bool := fun p => p == "1234.json"

/-- C5 counterexample: with pending entries `999.json` and `1234.json` and a
sink that accepts the first POST, the code attempts and delivers (removes)
the newer batch (identifier 1234) before the strictly older batch
(identifier 999) has been attempted — the drain follows lexicographic
file-name order, not the claimed oldest-first identifier order. -/
theorem claim_C5_counterexample :
    (upload_cached_measurements dirOld roTrue so1234).attempts =
      ["1234.json", "999.json"] ∧
    (upload_cached_measurements dirOld roTrue so1234).removed = ["1234.json"] ∧
    timestampId "999.json" < timestampId "1234.json" :=
  ⟨rfl, rfl, by decide⟩

/-- Witness for C5 on a concrete two-entry store whose every upload fails. -/
theorem claim_C5_witness :
    (upload_cached_measurements dirC5 roTrue soFalse).attempts =
      (["1000.json", "1001.json"] : List String).take
        (upload_cached_measurements dirC5 roTrue soFalse).attempts.length ∧
    (upload_cached_measurements dirC5 roTrue soFalse).attempts.Pairwise
      (fun a b => strLe a b = true) ∧
    (∀ p, (upload_cached_measurements dirC5 roTrue soFalse).err =
        some (.uploadError p) →
      (upload_cached_measurements dirC5 roTrue soFalse).attempts.getLast? =
          some p ∧ soFalse p = false) ∧
    (∀ p q, p ∈ (["1000.json", "1001.json"] : List String) →
      q ∈ (upload_cached_measurements dirC5 roTrue soFalse).attempts →
      strLe q p = false →
      p ∈ (upload_cached_measurements dirC5 roTrue soFalse).attempts) :=
  claim_C5 dirC5 roTrue soFalse ["1000.json", "1001.json"] rfl

/-- A concrete measurement from an expected address. -/
def mA : Measurement :=
  ⟨"AA:AA:AA:AA:AA:AA", 100, none, none, none, none⟩

/-- C3: with an empty expected-sensor table the collection loop never
returns a batch — `recv()` is called before any completeness check, and the
completeness check only runs after an upsert for a recognized address, so
the loop consumes every event and ends only with the stream-termination
error, contrary to the claimed immediate empty batch. -/
theorem claim_C3 :
    (∀ events : List Measurement,
      collect_measurements [] events = .error .recvError) ∧
    (∀ (m : Measurement) (events : List Measurement),
      collect_measurements [] (m :: events) = collect_measurements [] events) := by
  constructor
  · exact fun events => collectLoop_nil_sensors events []
  · intro m events
    rfl

/-- Witness for C3: with the empty table, one available event is consumed
and the loop still ends in the stream-termination error. -/
theorem claim_C3_witness :
    collect_measurements [] [mA] = .error .recvError ∧
    collect_measurements [] [mA] = collect_measurements [] [] :=
  ⟨claim_C3.1 [mA], claim_C3.2 mA []⟩

/-- C10: if two distinct addresses of the expected-sensor table map to the
same alias, `collect` never returns a batch: the alias-keyed batch can never
reach the size of the table, so the loop consumes events until the stream ends in
error. -/
theorem claim_C10 (sensors : SensorTable) (a₁ a₂ al : String)
    (h₁ : (a₁, al) ∈ sensors) (h₂ : (a₂, al) ∈ sensors) (hne : a₁ ≠ a₂) :
    ∀ events : List Measurement,
      collect_measurements sensors events = .error .recvError := by
  have hdup : ¬ (aliasesOf sensors).Nodup := by
    intro hnodup
    simp only [aliasesOf] at hnodup
    have hinj := List.inj_on_of_nodup_map hnodup
    have heq : (a₁, al) = (a₂, al) := hinj h₁ h₂ rfl
    exact hne (congrArg Prod.fst heq)
  intro events
  exact collectLoop_error_of_dup_alias hdup events []
    ⟨List.nodup_nil, fun a ha => absurd ha (List.not_mem_nil a)⟩

/-- An expected-sensor table mapping two distinct addresses to one alias. -/
def sensorsC10 : SensorTable := [("AA:AA", "room"), ("BB:BB", "room")]

/-- Witness for C10 on a concrete duplicated-alias table and a one-event
stream. -/
theorem claim_C10_witness :
    collect_measurements sensorsC10 [mA] = .error .recvError :=
  claim_C10 sensorsC10 "AA:AA" "BB:BB" "room" (by decide) (by decide)
    (by decide) [mA]

/-- C7: while the batch is incomplete and the address of the event maps to an
alias already present, two successive events for that address leave the loop
still running on the remaining events, with the batch entry for the alias
holding the later measurement, the batch keys still duplicate-free, and the
batch size unchanged. -/
theorem claim_C7 (sensors : SensorTable) (batch : Batch) (m₁ m₂ : Measurement)
    (rest : List Measurement) (a al : String)
    (hlook : lookupAssoc sensors a = some al)
    (ha₁ : m₁.address = a) (ha₂ : m₂.address = a)
    (hmem : al ∈ keysAssoc batch)
    (hincomp : batch.length ≠ sensors.length)
    (hnodup : (keysAssoc batch).Nodup) :
    collectLoop sensors (m₁ :: m₂ :: rest) batch =
      collectLoop sensors rest (insertAssoc al m₂ (insertAssoc al m₁ batch)) ∧
    lookupAssoc (insertAssoc al m₂ (insertAssoc al m₁ batch)) al = some m₂ ∧
    (keysAssoc (insertAssoc al m₂ (insertAssoc al m₁ batch))).Nodup ∧
    (insertAssoc al m₂ (insertAssoc al m₁ batch)).length = batch.length := by
  have hm₁ : al ∈ keysAssoc (insertAssoc al m₁ batch) :=
    (mem_keys_insertAssoc al m₁ batch al).mpr (Or.inl rfl)
  have hlen₁ : (insertAssoc al m₁ batch).length = batch.length :=
    length_insertAssoc_of_mem al m₁ batch hmem
  have hlen₂ : (insertAssoc al m₂ (insertAssoc al m₁ batch)).length =
      (insertAssoc al m₁ batch).length :=
    length_insertAssoc_of_mem al m₂ _ hm₁
  have hne₁ : (insertAssoc al m₁ batch).length ≠ sensors.length := by
    rw [hlen₁]; exact hincomp
  have hne₂ : (insertAssoc al m₂ (insertAssoc al m₁ batch)).length ≠
      sensors.length := by
    rw [hlen₂, hlen₁]; exact hincomp
  refine ⟨?_, lookupAssoc_insertAssoc_self al m₂ _,
    nodup_keys_insertAssoc al m₂ _ (nodup_keys_insertAssoc al m₁ _ hnodup),
    by rw [hlen₂, hlen₁]⟩
  simp only [collectLoop, ha₁, ha₂, hlook, if_neg hne₁, if_neg hne₂]

/-- An expected-sensor table with two sensors. -/
def sensors₂ : SensorTable := [("AA:AA", "x"), ("BB:BB", "y")]

/-- The earlier and the later of two successive measurements from the same
address, and the pre-existing entry for the alias of that address. -/
def m0 : Measurement := ⟨"AA:AA", 1, none, none, none, none⟩

/-- First of the two successive readings for address `AA:AA`. -/
def mX1 : Measurement := ⟨"AA:AA", 2, some 1, none, none, none⟩

/-- Second (later) of the two successive readings for address `AA:AA`. -/
def mX2 : Measurement := ⟨"AA:AA", 3, some 2, none, none, none⟩

/-- A one-entry batch already holding alias `x`. -/
def batch₀ : Batch := [("x", m0)]

/-- Witness for C7 on a concrete table, batch and event pair. -/
theorem claim_C7_witness :
    collectLoop sensors₂ [mX1, mX2] batch₀ =
      collectLoop sensors₂ [] (insertAssoc "x" mX2 (insertAssoc "x" mX1 batch₀)) ∧
    lookupAssoc (insertAssoc "x" mX2 (insertAssoc "x" mX1 batch₀)) "x" =
      some mX2 ∧
    (keysAssoc (insertAssoc "x" mX2 (insertAssoc "x" mX1 batch₀))).Nodup ∧
    (insertAssoc "x" mX2 (insertAssoc "x" mX1 batch₀)).length = batch₀.length :=
  claim_C7 sensors₂ batch₀ mX1 mX2 [] "AA:AA" "x" rfl rfl rfl (by decide)
    (by decide) (by decide)

/-- A POST of the fresh batch never appears among the pending-file POSTs. -/
theorem fresh_not_mem_map_pending (l : List String) :
    Attempt.fresh ∉ l.map Attempt.pending := by
  intro h
  rcases List.mem_map.mp h with ⟨x, _, hx⟩
  exact absurd hx (by simp)

/-- A one-sensor table whose single event completes collection. -/
def sensors₁ : SensorTable := [("AA:AA", "x")]

/-- An event stream that completes collection for `sensors₁`. -/
def eventsOk : List Measurement := [mX1]

/-- A store directory holding exactly one pending batch file. -/
def dirOne : DirAccess := .present [⟨"1000.json", true⟩]

/-- C1 counterexample: with a configured sink, a collection that succeeds,
one pending entry, and a sink that rejects every upload, the drain aborts
with a failure, yet the only POST of the run is the pending entry — the fresh
batch is never attempted against the sink; it is cached directly. -/
theorem claim_C1_counterexample :
    (upload_cached_measurements dirOne roTrue soFalse).err.isSome = true ∧
    (run (some "u") sensors₁ eventsOk dirOne roTrue soFalse true true).attempts =
      [Attempt.pending "1000.json"] ∧
    Attempt.fresh ∉
      (run (some "u") sensors₁ eventsOk dirOne roTrue soFalse true true).attempts ∧
    (run (some "u") sensors₁ eventsOk dirOne roTrue soFalse true true).cachedFresh =
      true := by
  refine ⟨rfl, rfl, ?_, rfl⟩
  decide

/-- C1 (amended): the fresh batch is POSTed to the sink if and only if a
URL is configured, collection succeeded, and the drain of pending entries
finished without failure; when the drain aborts with a failure the fresh
batch is not attempted and is instead cached directly (the cache write
happening exactly when `cache_measurements` succeeds). -/
theorem claim_C1 (url : Option String) (sensors : SensorTable)
    (events : List Measurement) (dir : DirAccess) (ro so : String → Bool)
    (freshOk cacheOk : Bool) :
    (Attempt.fresh ∈ (run url sensors events dir ro so freshOk cacheOk).attempts ↔
      url.isSome = true ∧
      exceptOk (collect_measurements sensors events) = true ∧
      (upload_cached_measurements dir ro so).err = none) ∧
    (url.isSome = true → exceptOk (collect_measurements sensors events) = true →
      (upload_cached_measurements dir ro so).err.isSome = true →
      (run url sensors events dir ro so freshOk cacheOk).cachedFresh = cacheOk) := by
  cases hc : collect_measurements sensors events with
  | error e => simp [run, hc, exceptOk]
  | ok b =>
    cases url with
    | none => simp [run, hc, exceptOk]
    | some u =>
      cases herr : (upload_cached_measurements dir ro so).err with
      | none =>
        cases freshOk <;> cases cacheOk <;>
          simp [run, hc, herr, exceptOk, fresh_not_mem_map_pending]
      | some e₂ =>
        cases cacheOk <;>
          simp [run, hc, herr, exceptOk, fresh_not_mem_map_pending]

/-- Witness for C1: with an absent store (drain trivially succeeds) the
fresh batch is POSTed; with a pending entry and a failing sink the fresh
batch is cached. -/
theorem claim_C1_witness :
    Attempt.fresh ∈
      (run (some "u") sensors₁ eventsOk (.metadataErr .notFound) roTrue soFalse
        true true).attempts ∧
    (run (some "u") sensors₁ eventsOk dirOne roTrue soFalse true true).cachedFresh =
      true :=
  ⟨(claim_C1 (some "u") sensors₁ eventsOk (.metadataErr .notFound) roTrue soFalse
      true true).1.mpr ⟨rfl, by decide, rfl⟩,
   (claim_C1 (some "u") sensors₁ eventsOk dirOne roTrue soFalse true true).2
      rfl (by decide) (by decide)⟩

/-- C4 counterexample: a batch-store read failure during the drain (a
metadata error on the store directory) whose compensating cache write
succeeds makes the process exit 0, whereas the claim as stated lists any
batch-store read/write failure among the conditions that exit non-zero. -/
theorem claim_C4_counterexample :
    (upload_cached_measurements (.metadataErr .permissionDenied) roTrue
        soFalse).err =
      some (.findError (.metadataError .permissionDenied)) ∧
    exitCode (run (some "u") sensors₁ eventsOk (.metadataErr .permissionDenied)
      roTrue soFalse true true) = 0 :=
  ⟨rfl, rfl⟩

/-- C4 (amended): the exit status is non-zero exactly when collection failed
(event stream ended before completeness) or, with a sink configured, a drain
failure (including a batch-store read failure) or a fresh-delivery failure
was compounded by a failing cache write; whenever the compensating cache
write succeeds — in particular when only delivery failed and the fresh batch
was cached, but also after a batch-store read failure during the drain — the
exit status is 0. -/
theorem claim_C4 (url : Option String) (sensors : SensorTable)
    (events : List Measurement) (dir : DirAccess) (ro so : String → Bool)
    (freshOk cacheOk : Bool) :
    (exitCode (run url sensors events dir ro so freshOk cacheOk) ≠ 0 ↔
      exceptOk (collect_measurements sensors events) = false ∨
      (url.isSome = true ∧
        ((upload_cached_measurements dir ro so).err.isSome = true ∨
          freshOk = false) ∧
        cacheOk = false)) ∧
    (url.isSome = true → exceptOk (collect_measurements sensors events) = true →
      cacheOk = true →
      exitCode (run url sensors events dir ro so freshOk cacheOk) = 0) := by
  cases hc : collect_measurements sensors events with
  | error e => simp [run, hc, exceptOk, exitCode]
  | ok b =>
    cases url with
    | none => simp [run, hc, exceptOk, exitCode]
    | some u =>
      cases herr : (upload_cached_measurements dir ro so).err with
      | none =>
        cases freshOk <;> cases cacheOk <;>
          simp [run, hc, herr, exceptOk, exitCode]
      | some e₂ =>
        cases cacheOk <;> simp [run, hc, herr, exceptOk, exitCode]

/-- Witness for C4: with a failing sink and one pending entry, a successful
cache write exits 0 and a failing cache write exits non-zero. -/
theorem claim_C4_witness :
    exitCode (run (some "u") sensors₁ eventsOk dirOne roTrue soFalse false true) =
      0 ∧
    exitCode (run (some "u") sensors₁ eventsOk dirOne roTrue soFalse false false) ≠
      0 :=
  ⟨(claim_C4 (some "u") sensors₁ eventsOk dirOne roTrue soFalse false true).2
      rfl (by decide) rfl,
   (claim_C4 (some "u") sensors₁ eventsOk dirOne roTrue soFalse false false).1.mpr
      (Or.inr ⟨rfl, Or.inl (by decide), rfl⟩)⟩

/-- C9: two `cache_measurements` invocations in the same wall-clock second
compute the same file name; the second truncates and overwrites the first,
so the store afterwards holds the second batch under that name, gained no
extra entry, and no longer holds the first (distinct) batch there. -/
theorem claim_C9 (t₁ t₂ : Nat) (ht : t₁ = t₂) (m₁ m₂ : Batch)
    (files : List (String × Batch)) :
    cacheFileName t₁ = cacheFileName t₂ ∧
    lookupAssoc (cache_measurements t₂ m₂ (cache_measurements t₁ m₁ files))
      (cacheFileName t₁) = some m₂ ∧
    (cache_measurements t₂ m₂ (cache_measurements t₁ m₁ files)).length =
      (cache_measurements t₁ m₁ files).length ∧
    (m₁ ≠ m₂ →
      lookupAssoc (cache_measurements t₂ m₂ (cache_measurements t₁ m₁ files))
        (cacheFileName t₁) ≠ some m₁) := by
  subst ht
  refine ⟨rfl, lookupAssoc_insertAssoc_self _ _ _, ?_, ?_⟩
  · exact length_insertAssoc_of_mem _ _ _
      ((mem_keys_insertAssoc _ _ _ _).mpr (Or.inl rfl))
  · intro hne hcontra
    have hself : lookupAssoc
        (cache_measurements t₁ m₂ (cache_measurements t₁ m₁ files))
        (cacheFileName t₁) = some m₂ := lookupAssoc_insertAssoc_self _ _ _
    rw [hself] at hcontra
    exact hne (Option.some.inj hcontra).symm

/-- Witness for C9 at a concrete second and two distinct batches. -/
theorem claim_C9_witness :
    (cacheFileName 1700000000 = cacheFileName 1700000000 ∧
      lookupAssoc
        (cache_measurements 1700000000 [] (cache_measurements 1700000000 batch₀ []))
        (cacheFileName 1700000000) = some [] ∧
      (cache_measurements 1700000000 []
        (cache_measurements 1700000000 batch₀ [])).length =
        (cache_measurements 1700000000 batch₀ []).length ∧
      (batch₀ ≠ [] →
        lookupAssoc
          (cache_measurements 1700000000 []
            (cache_measurements 1700000000 batch₀ []))
          (cacheFileName 1700000000) ≠ some batch₀)) ∧
    lookupAssoc
      (cache_measurements 1700000000 [] (cache_measurements 1700000000 batch₀ []))
      (cacheFileName 1700000000) ≠ some batch₀ :=
  ⟨claim_C9 1700000000 1700000000 rfl batch₀ [] [],
   (claim_C9 1700000000 1700000000 rfl batch₀ [] []).2.2.2 (by decide)⟩

end Ruuvitag
